import Mathlib

/-!
Verification of the rain-monitor script (`rain_monitor.py`).

The script fetches an hourly forecast (parallel arrays `time`,
`precipitation_probability`, `precipitation` under an `hourly` key),
resolves the current-hour index, aggregates the next three hours into a
summary, and emails an alert when the maximum probability of the summary meets
a threshold (or a testing-mode override is on).  Network fetch and email
send are wrapped in a retry policy (15 attempts, fixed 15-second wait,
retry on any exception).

The shallow embedding below mirrors the source: the raw JSON response
becomes `RawResponse` with `Option` fields (a missing key in Python raises
`KeyError`, which the analysis code turns into a `none` result), machine
configuration globals (`RAIN_THRESHOLD`, `TESTING_MODE`) become explicit
parameters with the source's defaults as named constants, "now" becomes
the pair of the hour-truncated timestamp string and the numeric
hour-of-day, and the retry decorator becomes `retryGo` over an explicit
sequence of attempt outcomes.  Probabilities are percentages (`Int`),
precipitation amounts are exact rationals (`Rat`).
-/

namespace RainMonitor

/-- Configured probability threshold (`RAIN_THRESHOLD = 50`). -/
def RAIN_THRESHOLD : Int := 50

/-- Configured testing-mode override (`TESTING_MODE = False`). -/
def TESTING_MODE : Bool := false

/-- Retry policy: maximum number of attempts (`stop_after_attempt(15)`). -/
def MAX_ATTEMPTS : Nat := 15

/-- Retry policy: fixed wait between attempts (`wait_fixed(15)`). -/
def WAIT_SECONDS : Nat := 15

/-- The `hourly` object of the API response; each key may be absent. -/
structure RawHourly where
  time : Option (List String)
  precipitation_probability : Option (List Int)
  precipitation : Option (List Rat)
deriving Repr, DecidableEq

/-- The parsed JSON body of a forecast response; `hourly` may be absent. -/
structure RawResponse where
  hourly : Option RawHourly
deriving Repr, DecidableEq

/-- One hour-detail record of the analysis summary (`hour_data` dict). -/
structure HourData where
  time : String
  probability : Int
  precipitation : Rat
deriving Repr, DecidableEq

/-- The analysis summary (`analysis` dict of `analyze_rain_probability`). -/
structure Analysis where
  city : String
  check_time : String
  hours_data : List HourData
  max_probability : Int
  total_precipitation : Rat
  alert_triggered : Bool
deriving Repr, DecidableEq

/-- Response validation performed by `fetch_weather_data` (lines 106-113):
a missing `hourly` key and a missing `precipitation_probability` key under
it each raise `ValueError`; otherwise the parsed body is returned unchanged. -/
def validateResponse (data : RawResponse) : Except String RawResponse :=
  match data.hourly with
  | none => Except.error "Invalid API response format"
  | some hr =>
    match hr.precipitation_probability with
    | none => Except.error "Missing precipitation probability data"
    | some _ => Except.ok data

/-- The Python method `str.startswith`: the characters of the pattern are
a prefix of the characters of the string. -/
def strStartsWith (s pat : String) : Bool :=
  pat.data.isPrefixOf s.data

/-- The `for i, time_str in enumerate(times)` loop of
`get_current_hour_index` (lines 151-154): return the position of the
first timestamp starting with `pat`, counting from `i`. -/
def scanTimes (pat : String) : List String → Nat → Option Nat
  | [], _ => none
  | s :: rest, i => if strStartsWith s pat then some i else scanTimes pat rest (i + 1)

/-- Models `get_current_hour_index` (lines 132-163).  `pat` is the hour-truncated
current-time string `current_hour_str[:13]` and `ch` the numeric
`current_time.hour`.  Scans the timestamps for the first one starting with
`pat`; if none matches, falls back to `ch`; a `KeyError` while reading
the `hourly` time array is caught and yields 0. -/
def get_current_hour_index (data : RawResponse) (pat : String) (ch : Nat) : Nat :=
  match data.hourly with
  | none => 0
  | some hr =>
    match hr.time with
    | none => 0
    | some times =>
      match scanTimes pat times 0 with
      | some i => i
      | none => ch

/-- One loop iteration of `analyze_rain_probability` (lines 198-221)
applied to an already-guarded in-bounds hour: append the hour-detail
record, update the running maximum and the precipitation total, and set
the alert flag when the probability reaches the threshold or testing
mode is on. -/
def pushHour (t : Int) (m : Bool) (a : Analysis) (hd : HourData) : Analysis :=
  { a with
    hours_data := a.hours_data ++ [hd],
    max_probability := max a.max_probability hd.probability,
    total_precipitation := a.total_precipitation + hd.precipitation,
    alert_triggered := if t ≤ hd.probability ∨ m = true then true else a.alert_triggered }

/-- One loop iteration of `analyze_rain_probability` for hour index `j`:
if `j < len(times)` the three parallel arrays are indexed at `j`
(an out-of-range index in the probability or precipitation array raises
`IndexError`, modelled as `none`, which aborts the whole analysis);
otherwise the position is skipped. -/
def analyzeStep (t : Int) (m : Bool) (times : List String) (probs : List Int)
    (precs : List Rat) (j : Nat) (a : Analysis) : Option Analysis :=
  if hj : j < times.length then
    match probs[j]?, precs[j]? with
    | some pv, some qv => some (pushHour t m a ⟨times[j], pv, qv⟩)
    | _, _ => none
  else
    some a

/-- Initial `analysis` dict before the loop (lines 188-195). -/
def initAnalysis (cityName checkTime : String) : Analysis :=
  ⟨cityName, checkTime, [], 0, 0, false⟩

/-- The `for i in range(3)` loop of `analyze_rain_probability`, starting
from the resolved current-hour index. -/
def analyzeCore (t : Int) (m : Bool) (times : List String) (probs : List Int)
    (precs : List Rat) (cityName checkTime : String) (idx : Nat) : Option Analysis :=
  (analyzeStep t m times probs precs idx (initAnalysis cityName checkTime)).bind
    (fun a1 => (analyzeStep t m times probs precs (idx + 1) a1).bind
      (fun a2 => analyzeStep t m times probs precs (idx + 2) a2))

/-- Models `analyze_rain_probability` (lines 166-231): resolve the current-hour
index, read the three hourly arrays (a missing key raises `KeyError`,
caught by the enclosing `except` which returns `None`), then run the
three-hour aggregation loop. -/
def analyze_rain_probability (t : Int) (m : Bool) (cityName checkTime pat : String)
    (ch : Nat) (data : RawResponse) : Option Analysis :=
  let currentIndex := get_current_hour_index data pat ch
  match data.hourly with
  | none => none
  | some hr =>
    match hr.time, hr.precipitation_probability, hr.precipitation with
    | some times, some probs, some precs =>
      analyzeCore t m times probs precs cityName checkTime currentIndex
    | _, _, _ => none

/-- Outcome of one run of the tenacity-retried call: the final result,
how many attempts were made, and the accumulated fixed waits. -/
structure RetryTrace (α : Type) where
  result : Except String α
  attemptsMade : Nat
  totalWait : Nat
deriving Repr

/-- Tenacity retry loop: `fuel` remaining attempts, `i` the index of the
next attempt in the outcome sequence `att`.  A successful attempt returns
immediately; a failed attempt waits `w` units and retries while attempts
remain; the error of the last attempt propagates. -/
def retryGo {α : Type} (w : Nat) (att : Nat → Except String α) :
    Nat → Nat → RetryTrace α
  | 0, _ => ⟨Except.error "no attempts configured", 0, 0⟩
  | 1, i => ⟨att i, 1, 0⟩
  | n + 2, i =>
    match att i with
    | Except.ok v => ⟨Except.ok v, 1, 0⟩
    | Except.error _ =>
      let r := retryGo w att (n + 1) (i + 1)
      ⟨r.result, r.attemptsMade + 1, r.totalWait + w⟩

/-- Models `@retry(stop=stop_after_attempt(maxA), wait=wait_fixed(w), retry on any
exception)` applied to a call whose successive attempt outcomes are `att`. -/
def runWithRetry {α : Type} (w maxA : Nat) (att : Nat → Except String α) : RetryTrace α :=
  retryGo w att maxA 0

/-- One attempt of `fetch_weather_data`: the network/HTTP layer yields a
parsed body or an exception; a body is then validated (missing `hourly`
or probability field raises `ValueError`, which the retry policy also
catches). -/
def fetchAttempt (responses : Nat → Except String RawResponse) (i : Nat) :
    Except String RawResponse :=
  (responses i).bind validateResponse

/-- Models `fetch_weather_data` (lines 72-129): the validated response after the
retry policy, given the sequence of raw per-attempt outcomes. -/
def fetch_weather_data (responses : Nat → Except String RawResponse) :
    Except String RawResponse :=
  (runWithRetry WAIT_SECONDS MAX_ATTEMPTS (fetchAttempt responses)).result

/-- Email subject built by `send_rain_alert_email` (lines 252-257): a
`[TEST]` subject exactly when testing mode is on and the maximum
probability is strictly below the threshold, otherwise a genuine alert
subject embedding the city name and the maximum probability. -/
def composeSubject (t : Int) (m : Bool) (a : Analysis) : String :=
  if m = true ∧ a.max_probability < t then
    "[TEST] Rain Monitor for " ++ a.city ++ " - " ++ toString a.max_probability
      ++ "% Probability"
  else
    "Rain Alert for " ++ a.city ++ " - " ++ toString a.max_probability
      ++ "% Probability"

/-- One per-hour line of the email body (line 268); `fmtTime` abstracts
the `datetime.fromisoformat`/`strftime` local-time formatting. -/
def hourLine (fmtTime : String → String) (i : Nat) (hd : HourData) : String :=
  "Hour " ++ toString (i + 1) ++ " (" ++ fmtTime hd.time ++ "): "
    ++ toString hd.probability ++ "% chance, " ++ toString hd.precipitation ++ "mm\n"

/-- The closing explanation of the email body (lines 254, 257). -/
def alertReason (t : Int) (m : Bool) (a : Analysis) : String :=
  if m = true ∧ a.max_probability < t then
    "This is a TEST EMAIL to verify email delivery is working."
  else
    "This alert was triggered because rain probability is " ++ toString t
      ++ "% or greater within the next 3 hours."

/-- Email body built by `send_rain_alert_email` (lines 259-278): header
marked `Rain Monitor Test` or `Rain Alert`, the check time, one line per
recorded hour, and a summary block. -/
def composeBody (t : Int) (m : Bool) (fmtTime : String → String) (a : Analysis) : String :=
  "Rain " ++ (if m = true ∧ a.max_probability < t then "Monitor Test" else "Alert")
    ++ " - " ++ a.city ++ "\n"
    ++ "Check Time: " ++ a.check_time ++ "\n\n"
    ++ "RAIN PROBABILITY FORECAST (Next 3 Hours):\n"
    ++ String.join (a.hours_data.enum.map (fun p => hourLine fmtTime p.1 p.2))
    ++ "\nSUMMARY:\n"
    ++ "- Maximum Probability: " ++ toString a.max_probability ++ "%\n"
    ++ "- Total Expected Precipitation: " ++ toString a.total_precipitation ++ "mm\n"
    ++ "- Alert Threshold: " ++ toString t ++ "%\n"
    ++ "- Testing Mode: " ++ (if m then "ON" else "OFF") ++ "\n\n"
    ++ alertReason t m a ++ "\n"

/-- A composed email message (subject and plain-text body). -/
structure EmailMsg where
  subject : String
  body : String
deriving Repr, DecidableEq

/-- Message construction of `send_rain_alert_email`. -/
def composeEmail (t : Int) (m : Bool) (fmtTime : String → String) (a : Analysis) : EmailMsg :=
  ⟨composeSubject t m a, composeBody t m fmtTime a⟩

/-- Models `send_rain_alert_email` (lines 234-289): composes the message and
delivers it under the retry policy; `sends` is the sequence of delivery
attempt outcomes.  On success the sent message is returned. -/
def send_rain_alert_email (t : Int) (m : Bool) (fmtTime : String → String)
    (a : Analysis) (sends : Nat → Except String Unit) : Except String EmailMsg :=
  ((runWithRetry WAIT_SECONDS MAX_ATTEMPTS sends).result).map
    (fun _ => composeEmail t m fmtTime a)

/-- Terminal outcome of one run of `main` (lines 292-323). -/
inductive MainOutcome where
  /-- An unhandled exception reached the handler in `main` and was
  re-raised (non-zero process exit). -/
  | crashed (e : String)
  /-- The analyzer returned `None`: an error is logged and `main` returns
  early without notifying (normal exit). -/
  | analysisFailed
  /-- Analysis succeeded but the alert flag is off: no email (normal exit). -/
  | noAlert (a : Analysis)
  /-- Analysis succeeded, alert flag on, email delivered. -/
  | notified (a : Analysis) (msg : EmailMsg)
deriving Repr, DecidableEq

/-- Process exit code implied by a `MainOutcome`: re-raised exceptions
exit non-zero, every other path exits 0. -/
def exitCode : MainOutcome → Nat
  | MainOutcome.crashed _ => 1
  | _ => 0

/-- Models `main` (lines 292-323): fetch (with retry), analyze, and notify when
the alert flag is set; a `None` analysis halts without notifying; any
propagated exception crashes the run. -/
def runMain (t : Int) (m : Bool) (cityName checkTime pat : String) (ch : Nat)
    (fmtTime : String → String)
    (responses : Nat → Except String RawResponse)
    (sends : Nat → Except String Unit) : MainOutcome :=
  match fetch_weather_data responses with
  | Except.error e => MainOutcome.crashed e
  | Except.ok data =>
    match analyze_rain_probability t m cityName checkTime pat ch data with
    | none => MainOutcome.analysisFailed
    | some a =>
      if a.alert_triggered then
        match send_rain_alert_email t m fmtTime a sends with
        | Except.ok msg => MainOutcome.notified a msg
        | Except.error e => MainOutcome.crashed e
      else
        MainOutcome.noAlert a

/-- Whether a subject line is marked as a test notification: it begins
with the literal `[TEST]` tag. -/
def testMarkedSubject (s : String) : Bool :=
  "[TEST]".data.isPrefixOf s.data

/-- Whether a body is marked as a test notification: it begins with the
`Rain Monitor Test` header rather than the `Rain Alert` header. -/
def testMarkedBody (b : String) : Bool :=
  "Rain Monitor Test".data.isPrefixOf b.data

/-- The correspondence, maintained by every loop iteration, between the
accumulated `hours_data` list and the three aggregate fields of the
`analysis` dict. -/
def goodAnalysis (t : Int) (m : Bool) (a : Analysis) : Prop :=
  a.max_probability = (a.hours_data.map HourData.probability).foldl max 0 ∧
  a.total_precipitation = (a.hours_data.map HourData.precipitation).sum ∧
  (a.alert_triggered = true ↔ ∃ hd ∈ a.hours_data, t ≤ hd.probability ∨ m = true)

/-! ### Helper lemmas about `List.foldl max` over `Int` -/

theorem le_foldl_max (l : List Int) (a : Int) : a ≤ l.foldl max a := by
  induction l generalizing a with
  | nil => exact le_refl a
  | cons x xs ih => exact le_trans (le_max_left a x) (ih (max a x))

theorem mem_le_foldl_max (l : List Int) (a x : Int) (hx : x ∈ l) : x ≤ l.foldl max a := by
  induction l generalizing a with
  | nil => cases hx
  | cons y ys ih =>
    rcases List.mem_cons.mp hx with h | h
    · subst h
      exact le_trans (le_max_right a x) (le_foldl_max ys (max a x))
    · exact ih (max a y) h

theorem foldl_max_cases (l : List Int) (a : Int) : l.foldl max a = a ∨ l.foldl max a ∈ l := by
  induction l generalizing a with
  | nil => exact Or.inl rfl
  | cons x xs ih =>
    rcases ih (max a x) with h | h
    · rcases max_cases a x with ⟨he, _⟩ | ⟨he, _⟩
      · exact Or.inl (by rw [List.foldl_cons, h, he])
      · exact Or.inr (by rw [List.foldl_cons, h, he]; exact List.mem_cons_self x xs)
    · exact Or.inr (List.mem_cons_of_mem x h)

/-! ### Behaviour of one loop iteration of the analyzer -/

theorem analyzeStep_skip {t : Int} {m : Bool} {times : List String} {probs : List Int}
    {precs : List Rat} {j : Nat} {a : Analysis} (h : times.length ≤ j) :
    analyzeStep t m times probs precs j a = some a := by
  unfold analyzeStep
  rw [dif_neg (by omega)]

theorem analyzeStep_hit {t : Int} {m : Bool} {times : List String} {probs : List Int}
    {precs : List Rat} {a : Analysis} {pv : Int} {qv : Rat} {j : Nat}
    (hj : j < times.length) (hp : probs[j]? = some pv) (hq : precs[j]? = some qv) :
    analyzeStep t m times probs precs j a
      = some (pushHour t m a ⟨times[j], pv, qv⟩) := by
  unfold analyzeStep
  rw [dif_pos hj, hp, hq]

theorem analyzeStep_err {t : Int} {m : Bool} {times : List String} {probs : List Int}
    {precs : List Rat} {j : Nat} {a : Analysis} (hj : j < times.length)
    (h : probs[j]? = none ∨ precs[j]? = none) :
    analyzeStep t m times probs precs j a = none := by
  unfold analyzeStep
  rw [dif_pos hj]
  rcases h with h | h
  · rw [h]
  · rw [h]
    cases probs[j]? <;> rfl

/-! ### The running-aggregate invariant of the analyzer loop -/

theorem goodAnalysis_init (t : Int) (m : Bool) (cn ct : String) :
    goodAnalysis t m (initAnalysis cn ct) := by
  refine ⟨rfl, rfl, ?_⟩
  simp [initAnalysis]

theorem goodAnalysis_push (t : Int) (m : Bool) (a : Analysis) (hd : HourData)
    (hg : goodAnalysis t m a) : goodAnalysis t m (pushHour t m a hd) := by
  obtain ⟨h1, h2, h3⟩ := hg
  refine ⟨?_, ?_, ?_⟩
  · simp [pushHour, List.foldl_append, h1]
  · simp [pushHour, h2]
  · simp only [pushHour]
    by_cases hc : t ≤ hd.probability ∨ m = true
    · rw [if_pos hc]
      simp only [List.mem_append, List.mem_singleton, true_iff]
      exact ⟨hd, Or.inr rfl, hc⟩
    · rw [if_neg hc]
      rw [h3]
      constructor
      · rintro ⟨x, hx, hor⟩
        exact ⟨x, List.mem_append_left _ hx, hor⟩
      · rintro ⟨x, hx, hor⟩
        rcases List.mem_append.mp hx with hx | hx
        · exact ⟨x, hx, hor⟩
        · rw [List.mem_singleton.mp hx] at hor
          exact absurd hor hc

theorem analyzeStep_good {t : Int} {m : Bool} {times : List String} {probs : List Int}
    {precs : List Rat} {j : Nat} {a b : Analysis}
    (h : analyzeStep t m times probs precs j a = some b)
    (hg : goodAnalysis t m a) : goodAnalysis t m b := by
  unfold analyzeStep at h
  by_cases hj : j < times.length
  · rw [dif_pos hj] at h
    cases hp : probs[j]? with
    | none => rw [hp] at h; cases hq : precs[j]? <;> rw [hq] at h <;> cases h
    | some pv =>
      cases hq : precs[j]? with
      | none => rw [hp, hq] at h; cases h
      | some qv =>
        rw [hp, hq] at h
        cases h
        exact goodAnalysis_push t m a _ hg
  · rw [dif_neg hj] at h
    cases h
    exact hg

theorem analyzeStep_probs_mem {t : Int} {m : Bool} {times : List String} {probs : List Int}
    {precs : List Rat} {j : Nat} {a b : Analysis}
    (h : analyzeStep t m times probs precs j a = some b)
    (ha : ∀ hd ∈ a.hours_data, hd.probability ∈ probs) :
    ∀ hd ∈ b.hours_data, hd.probability ∈ probs := by
  unfold analyzeStep at h
  by_cases hj : j < times.length
  · rw [dif_pos hj] at h
    cases hp : probs[j]? with
    | none => rw [hp] at h; cases hq : precs[j]? <;> rw [hq] at h <;> cases h
    | some pv =>
      cases hq : precs[j]? with
      | none => rw [hp, hq] at h; cases h
      | some qv =>
        rw [hp, hq] at h
        cases h
        intro hd hmem
        rcases List.mem_append.mp hmem with hmem | hmem
        · exact ha hd hmem
        · rw [List.mem_singleton.mp hmem]
          exact List.getElem?_mem hp
  · rw [dif_neg hj] at h
    cases h
    exact ha

theorem analyzeCore_good {t : Int} {m : Bool} {times : List String} {probs : List Int}
    {precs : List Rat} {cn ct : String} {idx : Nat} {a : Analysis}
    (h : analyzeCore t m times probs precs cn ct idx = some a) :
    goodAnalysis t m a ∧ ∀ hd ∈ a.hours_data, hd.probability ∈ probs := by
  unfold analyzeCore at h
  rcases Option.bind_eq_some.mp h with ⟨a1, h1, h2⟩
  rcases Option.bind_eq_some.mp h2 with ⟨a2, h21, h22⟩
  constructor
  · exact analyzeStep_good h22 (analyzeStep_good h21
      (analyzeStep_good h1 (goodAnalysis_init t m cn ct)))
  · refine analyzeStep_probs_mem h22 (analyzeStep_probs_mem h21
      (analyzeStep_probs_mem h1 ?_))
    intro hd hmem
    simp [initAnalysis] at hmem

theorem analyze_eq_some {t : Int} {m : Bool} {cn ct pat : String} {ch : Nat}
    {data : RawResponse} {a : Analysis}
    (h : analyze_rain_probability t m cn ct pat ch data = some a) :
    ∃ times probs precs, data.hourly = some ⟨some times, some probs, some precs⟩ ∧
      analyzeCore t m times probs precs cn ct (get_current_hour_index data pat ch)
        = some a := by
  rcases data with ⟨_ | ⟨tmo, po, qo⟩⟩
  · simp [analyze_rain_probability] at h
  · rcases tmo with _ | times
    · simp [analyze_rain_probability] at h
    · rcases po with _ | probs
      · simp [analyze_rain_probability] at h
      · rcases qo with _ | precs
        · simp [analyze_rain_probability] at h
        · exact ⟨times, probs, precs, rfl, h⟩

theorem analyze_good {t : Int} {m : Bool} {cn ct pat : String} {ch : Nat}
    {data : RawResponse} {a : Analysis}
    (h : analyze_rain_probability t m cn ct pat ch data = some a) :
    goodAnalysis t m a := by
  rcases analyze_eq_some h with ⟨times, probs, precs, _, hcore⟩
  exact (analyzeCore_good hcore).1

/-! ### Behaviour of the timestamp scan -/

theorem scanTimes_found (pat : String) :
    ∀ (times : List String) (base j : Nat) (hj : j < times.length),
      strStartsWith (times.get ⟨j, hj⟩) pat = true →
      (∀ j' (h' : j' < j),
        strStartsWith (times.get ⟨j', Nat.lt_trans h' hj⟩) pat = false) →
      scanTimes pat times base = some (base + j) := by
  intro times
  induction times with
  | nil => intro base j hj; cases hj
  | cons s rest ih =>
    intro base j hj h1 h2
    cases j with
    | zero =>
      unfold scanTimes
      rw [if_pos (show strStartsWith s pat = true from h1)]
      rw [Nat.add_zero]
    | succ j' =>
      have hs : strStartsWith s pat = false := h2 0 (Nat.succ_pos j')
      unfold scanTimes
      rw [if_neg (by rw [hs]; exact Bool.false_ne_true)]
      have := ih (base + 1) j' (Nat.lt_of_succ_lt_succ hj) h1
        (fun j'' h'' => h2 (j'' + 1) (Nat.succ_lt_succ h''))
      rw [this]
      congr 1
      omega

theorem scanTimes_notFound (pat : String) :
    ∀ (times : List String) (base : Nat),
      (∀ s ∈ times, strStartsWith s pat = false) →
      scanTimes pat times base = none := by
  intro times
  induction times with
  | nil => intro base _; rfl
  | cons s rest ih =>
    intro base h
    unfold scanTimes
    rw [if_neg (by rw [h s (List.mem_cons_self s rest)]; exact Bool.false_ne_true)]
    exact ih (base + 1) (fun x hx => h x (List.mem_cons_of_mem s hx))

/-! ### Behaviour of the retry policy -/

theorem retryGo_succeeds {α : Type} (w : Nat) (att : Nat → Except String α) :
    ∀ (k n i : Nat) (v : α), k < n →
      (∀ j, j < k → ∃ e, att (i + j) = Except.error e) →
      att (i + k) = Except.ok v →
      retryGo w att n i = ⟨Except.ok v, k + 1, w * k⟩ := by
  intro k
  induction k with
  | zero =>
    intro n i v hn _ hv
    rw [Nat.add_zero] at hv
    match n, hn with
    | 1, _ =>
      unfold retryGo
      rw [hv, Nat.mul_zero]
    | n' + 2, _ =>
      unfold retryGo
      rw [hv, Nat.mul_zero]
  | succ k' ih =>
    intro n i v hn hmiss hv
    match n, hn with
    | n' + 2, _ =>
      obtain ⟨e, he⟩ := hmiss 0 (Nat.succ_pos k')
      rw [Nat.add_zero] at he
      unfold retryGo
      rw [he]
      have hrec := ih (n' + 1) (i + 1) v (by omega)
        (fun j hj => by
          have := hmiss (j + 1) (Nat.succ_lt_succ hj)
          rwa [show i + (j + 1) = i + 1 + j by omega] at this)
        (by rwa [show i + 1 + k' = i + (k' + 1) by omega])
      rw [hrec]
      simp [Nat.mul_succ]

theorem retryGo_allFail {α : Type} (w : Nat) (att : Nat → Except String α) :
    ∀ (n i : Nat),
      (∀ j, j < n + 1 → ∃ e, att (i + j) = Except.error e) →
      retryGo w att (n + 1) i = ⟨att (i + n), n + 1, w * n⟩ := by
  intro n
  induction n with
  | zero =>
    intro i _
    unfold retryGo
    simp
  | succ n'' ih =>
    intro i hmiss
    obtain ⟨e, he⟩ := hmiss 0 (Nat.succ_pos _)
    rw [Nat.add_zero] at he
    unfold retryGo
    rw [he]
    have hrec := ih (i + 1)
      (fun j hj => by
        have := hmiss (j + 1) (Nat.succ_lt_succ hj)
        rwa [show i + (j + 1) = i + 1 + j by omega] at this)
    rw [hrec, Nat.mul_succ, show i + 1 + n'' = i + (n'' + 1) from by omega]

/-! ### Exact characterization of the three-hour aggregation loop -/

theorem analyzeCore_spec (t : Int) (m : Bool) (times : List String) (probs : List Int)
    (precs : List Rat) (cn ct : String) (idx : Nat)
    (hp : probs.length = times.length) (hq : precs.length = times.length) :
    ∃ a, analyzeCore t m times probs precs cn ct idx = some a ∧
      a.hours_data.length = min 3 (times.length - idx) ∧
      ∀ k hd, a.hours_data[k]? = some hd →
        times[(idx + k)]? = some hd.time ∧
        probs[(idx + k)]? = some hd.probability ∧
        precs[(idx + k)]? = some hd.precipitation := by
  by_cases hA : times.length ≤ idx
  · -- zero positions in bounds: all three iterations are skipped
    have hcore : analyzeCore t m times probs precs cn ct idx
        = some (initAnalysis cn ct) := by
      unfold analyzeCore
      rw [analyzeStep_skip (by omega), Option.some_bind,
        analyzeStep_skip (by omega), Option.some_bind,
        analyzeStep_skip (by omega)]
    refine ⟨_, hcore, ?_, ?_⟩
    · simp [initAnalysis]
      omega
    · intro k hd hk
      simp [initAnalysis] at hk
  · push_neg at hA
    by_cases hB : times.length ≤ idx + 1
    · -- exactly one position in bounds
      have h0 : idx < times.length := hA
      have hpi0 : idx < probs.length := by omega
      have hqi0 : idx < precs.length := by omega
      have hcore : analyzeCore t m times probs precs cn ct idx
          = some (pushHour t m (initAnalysis cn ct)
              ⟨times[idx], probs[idx], precs[idx]⟩) := by
        unfold analyzeCore
        rw [analyzeStep_hit h0 (List.getElem?_eq_getElem hpi0)
            (List.getElem?_eq_getElem hqi0), Option.some_bind,
          analyzeStep_skip (by omega), Option.some_bind,
          analyzeStep_skip (by omega)]
      refine ⟨_, hcore, ?_, ?_⟩
      · simp [pushHour, initAnalysis]
        omega
      · intro k hd hk
        simp only [pushHour, initAnalysis, List.nil_append] at hk
        rcases k with _ | k
        · rw [List.getElem?_cons_zero] at hk
          injection hk with hk'
          subst hk'
          exact ⟨List.getElem?_eq_getElem h0, List.getElem?_eq_getElem hpi0,
            List.getElem?_eq_getElem hqi0⟩
        · rw [List.getElem?_cons_succ, List.getElem?_nil] at hk
          cases hk
    · push_neg at hB
      by_cases hC : times.length ≤ idx + 2
      · -- exactly two positions in bounds
        have h0 : idx < times.length := hA
        have h1 : idx + 1 < times.length := hB
        have hpi0 : idx < probs.length := by omega
        have hpi1 : idx + 1 < probs.length := by omega
        have hqi0 : idx < precs.length := by omega
        have hqi1 : idx + 1 < precs.length := by omega
        have hcore : analyzeCore t m times probs precs cn ct idx
            = some (pushHour t m (pushHour t m (initAnalysis cn ct)
                ⟨times[idx], probs[idx], precs[idx]⟩)
                ⟨times[idx + 1], probs[idx + 1], precs[idx + 1]⟩) := by
          unfold analyzeCore
          rw [analyzeStep_hit h0 (List.getElem?_eq_getElem hpi0)
              (List.getElem?_eq_getElem hqi0), Option.some_bind,
            analyzeStep_hit h1 (List.getElem?_eq_getElem hpi1)
              (List.getElem?_eq_getElem hqi1), Option.some_bind,
            analyzeStep_skip (by omega)]
        refine ⟨_, hcore, ?_, ?_⟩
        · simp [pushHour, initAnalysis]
          omega
        · intro k hd hk
          simp only [pushHour, initAnalysis, List.nil_append, List.cons_append,
            List.singleton_append] at hk
          rcases k with _ | _ | k
          · rw [List.getElem?_cons_zero] at hk
            injection hk with hk'
            subst hk'
            exact ⟨List.getElem?_eq_getElem h0, List.getElem?_eq_getElem hpi0,
              List.getElem?_eq_getElem hqi0⟩
          · rw [List.getElem?_cons_succ, List.getElem?_cons_zero] at hk
            injection hk with hk'
            subst hk'
            exact ⟨List.getElem?_eq_getElem h1, List.getElem?_eq_getElem hpi1,
              List.getElem?_eq_getElem hqi1⟩
          · rw [List.getElem?_cons_succ, List.getElem?_cons_succ,
              List.getElem?_nil] at hk
            cases hk
      · -- all three positions in bounds
        push_neg at hC
        have h0 : idx < times.length := hA
        have h1 : idx + 1 < times.length := hB
        have h2 : idx + 2 < times.length := hC
        have hpi0 : idx < probs.length := by omega
        have hpi1 : idx + 1 < probs.length := by omega
        have hpi2 : idx + 2 < probs.length := by omega
        have hqi0 : idx < precs.length := by omega
        have hqi1 : idx + 1 < precs.length := by omega
        have hqi2 : idx + 2 < precs.length := by omega
        have hcore : analyzeCore t m times probs precs cn ct idx
            = some (pushHour t m (pushHour t m (pushHour t m (initAnalysis cn ct)
                ⟨times[idx], probs[idx], precs[idx]⟩)
                ⟨times[idx + 1], probs[idx + 1], precs[idx + 1]⟩)
                ⟨times[idx + 2], probs[idx + 2], precs[idx + 2]⟩) := by
          unfold analyzeCore
          rw [analyzeStep_hit h0 (List.getElem?_eq_getElem hpi0)
              (List.getElem?_eq_getElem hqi0), Option.some_bind,
            analyzeStep_hit h1 (List.getElem?_eq_getElem hpi1)
              (List.getElem?_eq_getElem hqi1), Option.some_bind,
            analyzeStep_hit h2 (List.getElem?_eq_getElem hpi2)
              (List.getElem?_eq_getElem hqi2)]
        refine ⟨_, hcore, ?_, ?_⟩
        · simp [pushHour, initAnalysis]
          omega
        · intro k hd hk
          simp only [pushHour, initAnalysis, List.nil_append, List.cons_append,
            List.singleton_append] at hk
          rcases k with _ | _ | _ | k
          · rw [List.getElem?_cons_zero] at hk
            injection hk with hk'
            subst hk'
            exact ⟨List.getElem?_eq_getElem h0, List.getElem?_eq_getElem hpi0,
              List.getElem?_eq_getElem hqi0⟩
          · rw [List.getElem?_cons_succ, List.getElem?_cons_zero] at hk
            injection hk with hk'
            subst hk'
            exact ⟨List.getElem?_eq_getElem h1, List.getElem?_eq_getElem hpi1,
              List.getElem?_eq_getElem hqi1⟩
          · rw [List.getElem?_cons_succ, List.getElem?_cons_succ,
              List.getElem?_cons_zero] at hk
            injection hk with hk'
            subst hk'
            exact ⟨List.getElem?_eq_getElem h2, List.getElem?_eq_getElem hpi2,
              List.getElem?_eq_getElem hqi2⟩
          · rw [List.getElem?_cons_succ, List.getElem?_cons_succ,
              List.getElem?_cons_succ, List.getElem?_nil] at hk
            cases hk

theorem isPrefixOf_append {l1 l2 l3 : List Char} (h : l1.isPrefixOf l2 = true) :
    l1.isPrefixOf (l2 ++ l3) = true := by
  induction l1 generalizing l2 with
  | nil => simp [List.isPrefixOf]
  | cons c cs ih =>
    cases l2 with
    | nil => simp [List.isPrefixOf] at h
    | cons b bs =>
      simp only [List.cons_append, List.isPrefixOf, Bool.and_eq_true] at h ⊢
      exact ⟨h.1, ih h.2⟩

theorem isPrefixOf_append_cancel (l0 : List Char) (p r : List Char) :
    (l0 ++ p).isPrefixOf (l0 ++ r) = p.isPrefixOf r := by
  induction l0 with
  | nil => rfl
  | cons c cs ih => simp [List.isPrefixOf, ih]

/-! ### Claim theorems -/

/-- C1, counterexample: with the testing-mode override active and a
forecast series in which zero hour-detail entries are included (empty
hourly arrays, resolved index 0), the alert flag of the produced summary
is `false`, although the claim asserts it would be `true` regardless of
probability whenever the override is active. -/
theorem claim1_counterexample :
    (analyze_rain_probability RAIN_THRESHOLD true "Madison" "ct" "2099-01-01T00" 0
        ⟨some ⟨some [], some [], some []⟩⟩).map
      (fun a => (a.alert_triggered, a.hours_data.length)) = some (false, 0) := rfl

/-- C1 (amended): for every forecast input and positive threshold, the
alert flag of a produced summary is true iff its maximum
probability reaches the threshold, or the test-override flag is active
and at least one hour-detail entry was included; with zero entries the
flag is false even under the override. -/
theorem claim1_alert_iff (t : Int) (m : Bool) (cn ct pat : String) (ch : Nat)
    (data : RawResponse) (a : Analysis) (ht : 0 < t)
    (h : analyze_rain_probability t m cn ct pat ch data = some a) :
    a.alert_triggered = true ↔
      (t ≤ a.max_probability ∨ (m = true ∧ a.hours_data ≠ [])) := by
  obtain ⟨hmax, _, halert⟩ := analyze_good h
  rw [halert, hmax]
  constructor
  · rintro ⟨hd, hmem, hor⟩
    rcases hor with hor | hor
    · left
      exact le_trans hor (mem_le_foldl_max _ 0 hd.probability
        (List.mem_map_of_mem HourData.probability hmem))
    · right
      exact ⟨hor, List.ne_nil_of_mem hmem⟩
  · rintro (hle | ⟨hm, hne⟩)
    · rcases foldl_max_cases (a.hours_data.map HourData.probability) 0 with hc | hc
      · rw [hc] at hle
        omega
      · rcases List.mem_map.mp hc with ⟨hd, hmem, hval⟩
        refine ⟨hd, hmem, Or.inl ?_⟩
        rw [hval]
        exact hle
    · obtain ⟨hd, hmem⟩ := List.exists_mem_of_ne_nil a.hours_data hne
      exact ⟨hd, hmem, Or.inr hm⟩

/-- C1 witness: a concrete run (one in-bounds hour of probability 60,
threshold 50, override off) where the amended equivalence is discharged
at a produced summary. -/
theorem claim1_witness :
    ((Analysis.mk "Madison" "ct" [HourData.mk "h0" 60 0] 60 0 true).alert_triggered = true ↔
      ((50 : Int) ≤ (Analysis.mk "Madison" "ct" [HourData.mk "h0" 60 0] 60 0 true).max_probability ∨
        (false = true ∧
          (Analysis.mk "Madison" "ct" [HourData.mk "h0" 60 0] 60 0 true).hours_data ≠ []))) :=
  claim1_alert_iff 50 false "Madison" "ct" "h0" 0
    ⟨some ⟨some ["h0"], some [60], some [0]⟩⟩
    (Analysis.mk "Madison" "ct" [HourData.mk "h0" 60 0] 60 0 true)
    (by decide)
    (by norm_num [analyze_rain_probability, get_current_hour_index, scanTimes, strStartsWith,
      analyzeCore, analyzeStep, pushHour, initAnalysis, List.isPrefixOf])

/-- C2, counterexample: a parsed body whose `hourly` object has the
probability field but lacks the precipitation field passes validation
unchanged, although the claim asserts a data-format error is raised
whenever either of the two fields is absent. -/
theorem claim2_counterexample :
    validateResponse ⟨some ⟨some ["2099-01-01T00:00"], some [10], none⟩⟩
        = Except.ok ⟨some ⟨some ["2099-01-01T00:00"], some [10], none⟩⟩ ∧
      ∀ e, validateResponse ⟨some ⟨some ["2099-01-01T00:00"], some [10], none⟩⟩
        ≠ Except.error e :=
  ⟨rfl, fun _ h => Except.noConfusion h⟩

/-- C2 (amended): the validation in `fetch_weather_data` succeeds iff the body
has an `hourly` object containing the precipitation-probability field,
and raises a data-format error when the `hourly` object or that field is
absent; the hourly precipitation field is not checked. -/
theorem claim2_validation (d : RawResponse) :
    (validateResponse d = Except.ok d ↔
      ∃ hr probs, d.hourly = some hr ∧ hr.precipitation_probability = some probs) ∧
    ((d.hourly = none ∨ ∃ hr, d.hourly = some hr ∧ hr.precipitation_probability = none) →
      ∃ e, validateResponse d = Except.error e) := by
  rcases d with ⟨ho⟩
  rcases ho with _ | ⟨tmo, po, qo⟩
  · refine ⟨?_, ?_⟩
    · simp [validateResponse]
    · intro _
      exact ⟨"Invalid API response format", rfl⟩
  · rcases po with _ | probs
    · refine ⟨?_, ?_⟩
      · simp [validateResponse]
      · intro _
        exact ⟨"Missing precipitation probability data", rfl⟩
    · refine ⟨?_, ?_⟩
      · simp [validateResponse]
      · rintro (h | ⟨hr, h, hpp⟩)
        · exact absurd h (by simp)
        · injection h with h'
          subst h'
          simp at hpp

/-- C3: for every forecast series with parallel arrays and the resolved
current-hour index `i`, the produced summary has exactly
`min 3 (L - i)` hour-detail entries (with truncated subtraction, i.e.
`min(3, max(0, L - i))`), and the time, probability and amount of the
`k`-th entry are exactly the series values at position `i + k`; positions
beyond the series length are skipped without error. -/
theorem claim3_entries (t : Int) (m : Bool) (cn ct pat : String) (ch : Nat)
    (times : List String) (probs : List Int) (precs : List Rat)
    (hp : probs.length = times.length) (hq : precs.length = times.length) :
    ∃ a, analyze_rain_probability t m cn ct pat ch
        ⟨some ⟨some times, some probs, some precs⟩⟩ = some a ∧
      a.hours_data.length = min 3 (times.length
        - get_current_hour_index ⟨some ⟨some times, some probs, some precs⟩⟩ pat ch) ∧
      ∀ k hd, a.hours_data[k]? = some hd →
        times[(get_current_hour_index ⟨some ⟨some times, some probs, some precs⟩⟩ pat ch + k)]?
            = some hd.time ∧
        probs[(get_current_hour_index ⟨some ⟨some times, some probs, some precs⟩⟩ pat ch + k)]?
            = some hd.probability ∧
        precs[(get_current_hour_index ⟨some ⟨some times, some probs, some precs⟩⟩ pat ch + k)]?
            = some hd.precipitation := by
  obtain ⟨a, hcore, hlen, hent⟩ := analyzeCore_spec t m times probs precs cn ct
    (get_current_hour_index ⟨some ⟨some times, some probs, some precs⟩⟩ pat ch) hp hq
  exact ⟨a, hcore, hlen, hent⟩

/-- C3 witness: a four-hour series whose resolved index is 3 (the last
position, matched by timestamp prefix), so exactly one entry is
included. -/
theorem claim3_witness :
    ∃ a, analyze_rain_probability 50 false "Madison" "ct" "d" 0
        ⟨some ⟨some ["a", "b", "c", "d"], some [1, 2, 3, 4], some [5, 6, 7, 8]⟩⟩
        = some a ∧
      a.hours_data.length = min 3 (["a", "b", "c", "d"].length
        - get_current_hour_index
            ⟨some ⟨some ["a", "b", "c", "d"], some [1, 2, 3, 4], some [5, 6, 7, 8]⟩⟩ "d" 0) ∧
      ∀ k hd, a.hours_data[k]? = some hd →
        ["a", "b", "c", "d"][(get_current_hour_index
            ⟨some ⟨some ["a", "b", "c", "d"], some [1, 2, 3, 4], some [5, 6, 7, 8]⟩⟩ "d" 0 + k)]?
            = some hd.time ∧
        ([1, 2, 3, 4] : List Int)[(get_current_hour_index
            ⟨some ⟨some ["a", "b", "c", "d"], some [1, 2, 3, 4], some [5, 6, 7, 8]⟩⟩ "d" 0 + k)]?
            = some hd.probability ∧
        ([5, 6, 7, 8] : List Rat)[(get_current_hour_index
            ⟨some ⟨some ["a", "b", "c", "d"], some [1, 2, 3, 4], some [5, 6, 7, 8]⟩⟩ "d" 0 + k)]?
            = some hd.precipitation :=
  claim3_entries 50 false "Madison" "ct" "d" 0
    ["a", "b", "c", "d"] [1, 2, 3, 4] [5, 6, 7, 8] rfl rfl

/-- C5: for every forecast series of (nonnegative) percentage
probabilities, the `max_probability` field of a produced summary is the
maximum of the probabilities among the included hour-detail entries, and
is 0 when no entries are included. -/
theorem claim5_max (t : Int) (m : Bool) (cn ct pat : String) (ch : Nat)
    (times : List String) (probs : List Int) (precs : List Rat) (a : Analysis)
    (hnn : ∀ p ∈ probs, 0 ≤ p)
    (h : analyze_rain_probability t m cn ct pat ch
        ⟨some ⟨some times, some probs, some precs⟩⟩ = some a) :
    (a.hours_data = [] → a.max_probability = 0) ∧
    (a.hours_data ≠ [] →
      a.max_probability ∈ a.hours_data.map HourData.probability ∧
      ∀ p ∈ a.hours_data.map HourData.probability, p ≤ a.max_probability) := by
  have hcore : analyzeCore t m times probs precs cn ct
      (get_current_hour_index ⟨some ⟨some times, some probs, some precs⟩⟩ pat ch)
        = some a := h
  obtain ⟨⟨hmax, _, _⟩, hmem⟩ := analyzeCore_good hcore
  constructor
  · intro he
    rw [he] at hmax
    simpa using hmax
  · intro hne
    constructor
    · rcases foldl_max_cases (a.hours_data.map HourData.probability) 0 with hc | hc
      · rw [hmax, hc]
        obtain ⟨hd, hdmem⟩ := List.exists_mem_of_ne_nil a.hours_data hne
        have h1 : hd.probability ≤ 0 := by
          rw [← hc]
          exact mem_le_foldl_max _ 0 _ (List.mem_map_of_mem _ hdmem)
        have h2 : 0 ≤ hd.probability := hnn hd.probability (hmem hd hdmem)
        have h3 : hd.probability = 0 := le_antisymm h1 h2
        rw [← h3]
        exact List.mem_map_of_mem _ hdmem
      · rw [hmax]
        exact hc
    · intro p hpmem
      rw [hmax]
      exact mem_le_foldl_max _ 0 p hpmem

/-- C5 witness: at a concrete two-entry summary, the maximum-probability
field is a member of the entry probabilities and dominates them. -/
theorem claim5_witness :
    (Analysis.mk "Madison" "ct"
        [HourData.mk "a" 20 1, HourData.mk "b" 70 2] 70 3 true).max_probability
      ∈ (Analysis.mk "Madison" "ct"
          [HourData.mk "a" 20 1, HourData.mk "b" 70 2] 70 3 true).hours_data.map
          HourData.probability ∧
    ∀ p ∈ (Analysis.mk "Madison" "ct"
        [HourData.mk "a" 20 1, HourData.mk "b" 70 2] 70 3 true).hours_data.map
        HourData.probability,
      p ≤ (Analysis.mk "Madison" "ct"
          [HourData.mk "a" 20 1, HourData.mk "b" 70 2] 70 3 true).max_probability :=
  (claim5_max 50 false "Madison" "ct" "a" 0 ["a", "b"] [20, 70] [1, 2]
    (Analysis.mk "Madison" "ct" [HourData.mk "a" 20 1, HourData.mk "b" 70 2] 70 3 true)
    (by decide)
    (by norm_num [analyze_rain_probability, get_current_hour_index, scanTimes, strStartsWith,
      analyzeCore, analyzeStep, pushHour, initAnalysis, List.isPrefixOf])).2
    (by decide)

/-- C6: the `total_precipitation` field of every produced summary is the
exact sum of the precipitation amounts of the included hour-detail
entries, and 0 when no entries are included. -/
theorem claim6_total (t : Int) (m : Bool) (cn ct pat : String) (ch : Nat)
    (data : RawResponse) (a : Analysis)
    (h : analyze_rain_probability t m cn ct pat ch data = some a) :
    a.total_precipitation = (a.hours_data.map HourData.precipitation).sum ∧
    (a.hours_data = [] → a.total_precipitation = 0) := by
  obtain ⟨_, hsum, _⟩ := analyze_good h
  refine ⟨hsum, fun he => ?_⟩
  rw [hsum, he]
  rfl

/-- C6 witness: a concrete three-entry run where the total-precipitation
field equals the sum of the entry amounts. -/
theorem claim6_witness :
    ∃ a, analyze_rain_probability 50 false "Madison" "ct" "a"
        0 ⟨some ⟨some ["a", "b", "c"], some [10, 20, 30], some [1, 2, 3]⟩⟩ = some a ∧
      a.total_precipitation = (a.hours_data.map HourData.precipitation).sum := by
  have h : analyze_rain_probability 50 false "Madison" "ct" "a" 0
      ⟨some ⟨some ["a", "b", "c"], some [10, 20, 30], some [1, 2, 3]⟩⟩
      = some ⟨"Madison", "ct", [⟨"a", 10, 1⟩, ⟨"b", 20, 2⟩, ⟨"c", 30, 3⟩], 30, 6, false⟩ := by
    norm_num [analyze_rain_probability, get_current_hour_index, scanTimes, strStartsWith,
      analyzeCore, analyzeStep, pushHour, initAnalysis, List.isPrefixOf]
  exact ⟨_, h, (claim6_total 50 false "Madison" "ct" "a" 0
    ⟨some ⟨some ["a", "b", "c"], some [10, 20, 30], some [1, 2, 3]⟩⟩ _ h).1⟩

/-- C4: `get_current_hour_index` returns the index of the first timestamp
whose hour-truncated prefix matches the current hour string; if no
timestamp matches, it returns the numeric current hour-of-day (0-23)
directly; and if the timestamp lookup itself fails (a missing `hourly`
or `time` key, i.e. a raised `KeyError`), it returns 0. -/
theorem claim4_index (pat : String) (ch : Nat) (hch : ch ≤ 23)
    (times : List String) (po : Option (List Int)) (qo : Option (List Rat)) :
    (∀ j s, times[j]? = some s → strStartsWith s pat = true →
      (∀ j' s', j' < j → times[j']? = some s' → strStartsWith s' pat = false) →
      get_current_hour_index ⟨some ⟨some times, po, qo⟩⟩ pat ch = j) ∧
    ((∀ s ∈ times, strStartsWith s pat = false) →
      get_current_hour_index ⟨some ⟨some times, po, qo⟩⟩ pat ch = ch) ∧
    get_current_hour_index ⟨some ⟨none, po, qo⟩⟩ pat ch = 0 ∧
    get_current_hour_index ⟨none⟩ pat ch = 0 := by
  refine ⟨?_, ?_, rfl, rfl⟩
  · intro j s hjs h1 h2
    obtain ⟨hj, hval⟩ := List.getElem?_eq_some.mp hjs
    have h1' : strStartsWith (times.get ⟨j, hj⟩) pat = true := by
      rw [List.get_eq_getElem, hval]
      exact h1
    have h2' : ∀ j' (h' : j' < j),
        strStartsWith (times.get ⟨j', Nat.lt_trans h' hj⟩) pat = false := by
      intro j' h'
      have hlt : j' < times.length := Nat.lt_trans h' hj
      refine h2 j' (times.get ⟨j', hlt⟩) h' ?_
      simp [List.getElem?_eq_getElem hlt, List.get_eq_getElem]
    have hscan := scanTimes_found pat times 0 j hj h1' h2'
    unfold get_current_hour_index
    simp only [hscan]
    omega
  · intro hnone
    have hscan := scanTimes_notFound pat times 0 hnone
    unfold get_current_hour_index
    simp only [hscan]

/-- C4 witness: a two-timestamp series where the second timestamp matches
the current-hour prefix (index 1 returned), and a pattern matching no
timestamp (the numeric hour 3 returned). -/
theorem claim4_witness :
    get_current_hour_index
        ⟨some ⟨some ["2099-01-01T05:00", "2099-01-01T06:00"], none, none⟩⟩
        "2099-01-01T06" 3 = 1 ∧
    get_current_hour_index
        ⟨some ⟨some ["2099-01-01T05:00", "2099-01-01T06:00"], none, none⟩⟩
        "2099-01-01T09" 3 = 3 := by
  constructor
  · exact (claim4_index "2099-01-01T06" 3 (by decide)
      ["2099-01-01T05:00", "2099-01-01T06:00"] none none).1 1 "2099-01-01T06:00"
      (by decide) (by decide)
      (fun j' s' hlt hjs => by
        have hz : j' = 0 := by omega
        subst hz
        simp at hjs
        subst hjs
        decide)
  · exact (claim4_index "2099-01-01T09" 3 (by decide)
      ["2099-01-01T05:00", "2099-01-01T06:00"] none none).2.1 (by decide)

/-- C7: whenever analysis yields a null result, the orchestrator halts
with the `analysisFailed` outcome — no notification and a normal (zero)
exit, not a crash; and an input whose `hourly` object lacks the
precipitation array (a `KeyError` inside the analyzer, unseen by the
fetch-time validation) makes the analyzer yield null rather than a
partial summary. -/
theorem claim7_null (t : Int) (m : Bool) (cn ct pat : String) (ch : Nat)
    (fmtTime : String → String) (responses : Nat → Except String RawResponse)
    (sends : Nat → Except String Unit) (data : RawResponse)
    (hf : fetch_weather_data responses = Except.ok data) :
    (analyze_rain_probability t m cn ct pat ch data = none →
      runMain t m cn ct pat ch fmtTime responses sends = MainOutcome.analysisFailed ∧
      (∀ a msg,
        runMain t m cn ct pat ch fmtTime responses sends ≠ MainOutcome.notified a msg) ∧
      exitCode (runMain t m cn ct pat ch fmtTime responses sends) = 0) ∧
    (∀ hr, data.hourly = some hr → hr.precipitation = none →
      analyze_rain_probability t m cn ct pat ch data = none) := by
  constructor
  · intro ha
    have hrun : runMain t m cn ct pat ch fmtTime responses sends
        = MainOutcome.analysisFailed := by
      simp only [runMain, hf, ha]
    refine ⟨hrun, ?_, ?_⟩
    · intro a msg hcon
      rw [hrun] at hcon
      cases hcon
    · rw [hrun]
      rfl
  · intro hr hh hpn
    rcases data with ⟨ho⟩
    obtain rfl : ho = some hr := hh
    rcases hr with ⟨tmo, po, qo⟩
    obtain rfl : qo = none := hpn
    rcases tmo with _ | ts <;> rcases po with _ | ps <;> rfl

/-- C7 witness: a response that passes fetch-time validation but lacks
the precipitation array; the analyzer yields null and the run halts with
the failed-analysis outcome and exit code 0. -/
theorem claim7_witness :
    analyze_rain_probability 50 false "Madison" "ct" "p" 0
        ⟨some ⟨some ["x"], some [10], none⟩⟩ = none ∧
    runMain 50 false "Madison" "ct" "p" 0 id
        (fun _ => Except.ok ⟨some ⟨some ["x"], some [10], none⟩⟩)
        (fun _ => Except.ok ()) = MainOutcome.analysisFailed ∧
    exitCode (runMain 50 false "Madison" "ct" "p" 0 id
        (fun _ => Except.ok ⟨some ⟨some ["x"], some [10], none⟩⟩)
        (fun _ => Except.ok ())) = 0 := by
  have h := claim7_null 50 false "Madison" "ct" "p" 0 id
    (fun _ => Except.ok ⟨some ⟨some ["x"], some [10], none⟩⟩)
    (fun _ => Except.ok ())
    ⟨some ⟨some ["x"], some [10], none⟩⟩ rfl
  have ha : analyze_rain_probability 50 false "Madison" "ct" "p" 0
      ⟨some ⟨some ["x"], some [10], none⟩⟩ = none :=
    h.2 ⟨some ["x"], some [10], none⟩ rfl rfl
  obtain ⟨h1, _, h3⟩ := h.1 ha
  exact ⟨ha, h1, h3⟩

/-- C8: the retry policy makes up to 15 attempts with a fixed
15-time-unit wait between attempts, retrying on any error: the first
successful attempt's value is returned (after `k` failures, `k` waits);
if all 15 attempts fail, the 15th attempt's error is the final result,
and a fetch failing all 15 attempts crashes the run with a non-zero
exit code. -/
theorem claim8_retry {α : Type} (att : Nat → Except String α)
    (t : Int) (m : Bool) (cn ct pat : String) (ch : Nat) (fmtTime : String → String)
    (responses : Nat → Except String RawResponse) (sends : Nat → Except String Unit) :
    (∀ k v, k < 15 → (∀ j, j < k → ∃ e, att j = Except.error e) →
      att k = Except.ok v →
      runWithRetry WAIT_SECONDS MAX_ATTEMPTS att
        = ⟨Except.ok v, k + 1, WAIT_SECONDS * k⟩) ∧
    ((∀ j, j < 15 → ∃ e, att j = Except.error e) →
      ∃ e, att 14 = Except.error e ∧
        runWithRetry WAIT_SECONDS MAX_ATTEMPTS att
          = ⟨Except.error e, 15, WAIT_SECONDS * 14⟩) ∧
    ((∀ j, j < 15 → ∃ e, fetchAttempt responses j = Except.error e) →
      ∃ e, runMain t m cn ct pat ch fmtTime responses sends = MainOutcome.crashed e ∧
        exitCode (runMain t m cn ct pat ch fmtTime responses sends) = 1) := by
  refine ⟨?_, ?_, ?_⟩
  · intro k v hk hmiss hv
    unfold runWithRetry MAX_ATTEMPTS
    exact retryGo_succeeds WAIT_SECONDS att k 15 0 v hk
      (fun j hj => by rw [Nat.zero_add]; exact hmiss j hj)
      (by rw [Nat.zero_add]; exact hv)
  · intro hfail
    obtain ⟨e, he⟩ := hfail 14 (by omega)
    refine ⟨e, he, ?_⟩
    unfold runWithRetry MAX_ATTEMPTS
    have hrg : retryGo WAIT_SECONDS att 15 0
        = ⟨att (0 + 14), 15, WAIT_SECONDS * 14⟩ :=
      retryGo_allFail WAIT_SECONDS att 14 0
        (fun j hj => by rw [Nat.zero_add]; exact hfail j hj)
    rw [hrg, Nat.zero_add, he]
  · intro hfail
    obtain ⟨e, he⟩ := hfail 14 (by omega)
    have hrg : retryGo WAIT_SECONDS (fetchAttempt responses) 15 0
        = ⟨fetchAttempt responses (0 + 14), 15, WAIT_SECONDS * 14⟩ :=
      retryGo_allFail WAIT_SECONDS (fetchAttempt responses) 14 0
        (fun j hj => by rw [Nat.zero_add]; exact hfail j hj)
    have hfetch : fetch_weather_data responses = Except.error e := by
      unfold fetch_weather_data runWithRetry MAX_ATTEMPTS
      rw [hrg]
      show fetchAttempt responses (0 + 14) = Except.error e
      rw [Nat.zero_add]
      exact he
    have hrun : runMain t m cn ct pat ch fmtTime responses sends
        = MainOutcome.crashed e := by
      unfold runMain
      rw [hfetch]
    exact ⟨e, hrun, by rw [hrun]; rfl⟩

/-- C8 witness: an attempt sequence failing three times then succeeding
(three fixed waits accumulated), run through the retry policy. -/
theorem claim8_witness :
    runWithRetry WAIT_SECONDS MAX_ATTEMPTS
        (fun i => if i < 3 then Except.error "boom" else Except.ok (7 : Nat))
      = ⟨Except.ok 7, 4, WAIT_SECONDS * 3⟩ :=
  (claim8_retry (fun i => if i < 3 then Except.error "boom" else Except.ok (7 : Nat))
    50 false "Madison" "ct" "p" 0 id (fun _ => Except.ok ⟨none⟩)
    (fun _ => Except.ok ())).1 3 7 (by omega)
    (fun j hj => ⟨"boom", by rw [if_pos hj]⟩)
    (by simp)

/-- C9: the subject and the body of the composed message are marked as a
test notification exactly when the testing-mode override is active and
the summary's maximum probability is strictly below the threshold;
otherwise the subject is the genuine alert line embedding the location
name and the maximum probability. -/
theorem claim9_marking (t : Int) (m : Bool) (fmtTime : String → String) (a : Analysis) :
    (testMarkedSubject (composeEmail t m fmtTime a).subject = true ↔
      (m = true ∧ a.max_probability < t)) ∧
    (testMarkedBody (composeEmail t m fmtTime a).body = true ↔
      (m = true ∧ a.max_probability < t)) ∧
    (¬(m = true ∧ a.max_probability < t) →
      (composeEmail t m fmtTime a).subject
        = "Rain Alert for " ++ a.city ++ " - " ++ toString a.max_probability
            ++ "% Probability") := by
  by_cases hc : m = true ∧ a.max_probability < t
  · refine ⟨iff_of_true ?_ hc, iff_of_true ?_ hc, fun hn => absurd hc hn⟩
    · show testMarkedSubject (composeSubject t m a) = true
      unfold composeSubject
      rw [if_pos hc]
      unfold testMarkedSubject
      simp only [String.data_append, List.append_assoc]
      apply isPrefixOf_append
      decide
    · show testMarkedBody (composeBody t m fmtTime a) = true
      unfold composeBody
      rw [if_pos hc]
      rw [show ("Rain " ++ "Monitor Test" : String) = "Rain Monitor Test" from rfl]
      unfold testMarkedBody
      simp only [String.data_append, List.append_assoc]
      apply isPrefixOf_append
      decide
  · have hs : composeSubject t m a
        = "Rain Alert for " ++ a.city ++ " - " ++ toString a.max_probability
            ++ "% Probability" := by
      unfold composeSubject
      rw [if_neg hc]
    refine ⟨iff_of_false ?_ hc, iff_of_false ?_ hc, fun _ => hs⟩
    · intro hcon
      rw [show (composeEmail t m fmtTime a).subject = composeSubject t m a from rfl,
        hs] at hcon
      rw [show testMarkedSubject ("Rain Alert for " ++ a.city ++ " - "
          ++ toString a.max_probability ++ "% Probability") = false from rfl] at hcon
      cases hcon
    · intro hcon
      have hfb : testMarkedBody (composeBody t m fmtTime a) = false := by
        unfold composeBody testMarkedBody
        rw [if_neg hc,
          show ("Rain Monitor Test" : String).data
            = "Rain ".data ++ "Monitor Test".data from rfl]
        simp only [String.data_append, List.append_assoc]
        rw [isPrefixOf_append_cancel]
        rfl
      rw [show (composeEmail t m fmtTime a).body = composeBody t m fmtTime a from rfl,
        hfb] at hcon
      cases hcon

/-- C9 witness: a genuine alert (override off, probability 60 above the
threshold 50) has the unmarked alert subject embedding city and
probability. -/
theorem claim9_witness :
    (composeEmail 50 false id (Analysis.mk "Madison" "ct" [] 60 0 false)).subject
      = "Rain Alert for " ++ "Madison" ++ " - " ++ toString (60 : Int)
          ++ "% Probability" :=
  (claim9_marking 50 false id (Analysis.mk "Madison" "ct" [] 60 0 false)).2.2 (by simp)

/-- C10: in every produced summary, a set alert flag implies at least one
hour-detail entry; consequently the notifier, reached only when the flag
is set, is never handed a summary with zero entries. -/
theorem claim10_alert_nonempty (t : Int) (m : Bool) (cn ct pat : String) (ch : Nat)
    (fmtTime : String → String) (responses : Nat → Except String RawResponse)
    (sends : Nat → Except String Unit) :
    (∀ data a, analyze_rain_probability t m cn ct pat ch data = some a →
      a.alert_triggered = true → a.hours_data ≠ []) ∧
    (∀ a msg,
      runMain t m cn ct pat ch fmtTime responses sends = MainOutcome.notified a msg →
      a.hours_data ≠ []) := by
  have hpart : ∀ data a, analyze_rain_probability t m cn ct pat ch data = some a →
      a.alert_triggered = true → a.hours_data ≠ [] := by
    intro data a h halert
    obtain ⟨_, _, hiff⟩ := analyze_good h
    obtain ⟨hd, hmem, _⟩ := hiff.mp halert
    exact List.ne_nil_of_mem hmem
  refine ⟨hpart, ?_⟩
  intro a msg hrun
  unfold runMain at hrun
  rcases hfr : fetch_weather_data responses with e | data
  · simp only [hfr] at hrun
    cases hrun
  · simp only [hfr] at hrun
    rcases han : analyze_rain_probability t m cn ct pat ch data with _ | a'
    · simp only [han] at hrun
      cases hrun
    · simp only [han] at hrun
      rcases hal : a'.alert_triggered
      · rw [hal] at hrun
        rw [if_neg (by simp)] at hrun
        cases hrun
      · rw [hal] at hrun
        rw [if_pos rfl] at hrun
        rcases hs : send_rain_alert_email t m fmtTime a' sends with e | msg'
        · simp only [hs] at hrun
          cases hrun
        · simp only [hs] at hrun
          injection hrun with h1 h2
          subst h1
          exact hpart data a' han hal

/-- C10 witness: a concrete run whose produced summary has the alert flag
set, hence a non-empty hour-detail list. -/
theorem claim10_witness :
    (Analysis.mk "Madison" "ct" [HourData.mk "h0" 60 0] 60 0 true).hours_data ≠ [] :=
  (claim10_alert_nonempty 50 false "Madison" "ct" "h0" 0 id
    (fun _ => Except.ok ⟨some ⟨some ["h0"], some [60], some [0]⟩⟩)
    (fun _ => Except.ok ())).1
    ⟨some ⟨some ["h0"], some [60], some [0]⟩⟩
    (Analysis.mk "Madison" "ct" [HourData.mk "h0" 60 0] 60 0 true)
    (by norm_num [analyze_rain_probability, get_current_hour_index, scanTimes, strStartsWith,
      analyzeCore, analyzeStep, pushHour, initAnalysis, List.isPrefixOf])
    rfl

/-- C2 witness: a body with no `hourly` object is rejected by validation
with a data-format error. -/
theorem claim2_witness :
    ∃ e, validateResponse ⟨none⟩ = Except.error e :=
  (claim2_validation ⟨none⟩).2 (Or.inl rfl)

end RainMonitor
